import Mathlib

/-!
Verification of the `pub` command-line publisher (src/main.go).

The embedding models the observable logic of `realMain` and `getData`:
byte buffers are `List Nat` (each entry a byte value), strings keep their
Lean `String` type, and the external collaborators (the gcloud project
lookup, the pubsub client construction, the topic existence check and the
per-message publish call) are fields of an `Env` record supplying their
results.  `realMain` returns the final result together with the list of
printed stdout lines and the trace of externally visible calls (existence
checks and publish attempts), so that ordering claims can be stated.
-/

/-- UTF-8 encoding of one character, as the list of its byte values.
Models the byte representation Go uses for `[]byte(s)`. -/
def charBytes (c : Char) : List Nat :=
  let n := c.toNat
  if n < 128 then [n]
  else if n < 2048 then [192 + n / 64, 128 + n % 64]
  else if n < 65536 then [224 + n / 4096, 128 + n / 64 % 64, 128 + n % 64]
  else [240 + n / 262144, 128 + n / 4096 % 64, 128 + n / 64 % 64, 128 + n % 64]

/-- The byte sequence of a string (Go `[]byte(s)`). -/
def strBytes (s : String) : List Nat :=
  (s.data.map charBytes).flatten

/-- Value of a byte in the standard base64 alphabet, `none` when the byte
is not an alphabet byte.  Models the `decodeMap` of Go
`encoding/base64.StdEncoding`. -/
def b64Index (b : Nat) : Option Nat :=
  if 65 ≤ b ∧ b ≤ 90 then some (b - 65)
  else if 97 ≤ b ∧ b ≤ 122 then some (b - 71)
  else if 48 ≤ b ∧ b ≤ 57 then some (b + 4)
  else if b = 43 then some 62
  else if b = 47 then some 63
  else none

/-- Alphabet byte for a 6-bit value (the `encodeStd` table of Go
`encoding/base64`). -/
def b64Char (i : Nat) : Nat :=
  if i < 26 then i + 65
  else if i < 52 then i + 71
  else if i < 62 then i - 4
  else if i = 62 then 43
  else 47

/-- Three output bytes of a full base64 quantum. -/
def quantum3 (i1 i2 i3 i4 : Nat) : List Nat :=
  let v := i1 * 262144 + i2 * 4096 + i3 * 64 + i4
  [v / 65536 % 256, v / 256 % 256, v % 256]

/-- Two output bytes of a quantum ending in one padding byte.  The low two
bits of `i3` are dropped, as in the non-strict Go decoder. -/
def quantum2 (i1 i2 i3 : Nat) : List Nat :=
  let v := i1 * 262144 + i2 * 4096 + i3 * 64
  [v / 65536 % 256, v / 256 % 256]

/-- One output byte of a quantum ending in two padding bytes.  The low four
bits of `i2` are dropped, as in the non-strict Go decoder. -/
def quantum1 (i1 i2 : Nat) : List Nat :=
  [(i1 * 262144 + i2 * 4096) / 65536 % 256]

/-- Base64 decoding of a newline-free byte sequence in four-byte quanta,
following Go `base64.StdEncoding.DecodeString` (padding required, byte 61
is the pad byte, trailing bits of the final partial quantum are not
checked, data after the padding is an error). -/
def decodeQuanta : List Nat → Option (List Nat)
  | [] => some []
  | c1 :: c2 :: c3 :: c4 :: rest =>
    match b64Index c1, b64Index c2 with
    | some i1, some i2 =>
      match b64Index c3, b64Index c4 with
      | some i3, some i4 =>
        (decodeQuanta rest).map (fun out => quantum3 i1 i2 i3 i4 ++ out)
      | some i3, none =>
        if c4 = 61 ∧ rest = [] then some (quantum2 i1 i2 i3) else none
      | none, _ =>
        if c3 = 61 ∧ c4 = 61 ∧ rest = [] then some (quantum1 i1 i2) else none
    | _, _ => none
  | _ => none

/-- Keep a byte unless it is a newline or carriage return. -/
def notNL (b : Nat) : Bool :=
  b ≠ 10 && b ≠ 13

/-- The Go base64 decoder skips `\n` and `\r` bytes wherever they occur. -/
def dropNewlines (l : List Nat) : List Nat :=
  l.filter notNL

/-- Go `base64.StdEncoding.DecodeString` on a byte sequence: newline bytes
are skipped, then the bytes are decoded quantum by quantum. -/
def decodeBytes (l : List Nat) : Option (List Nat) :=
  decodeQuanta (dropNewlines l)

/-- Go `base64.StdEncoding.EncodeToString`, producing the byte sequence of
the encoded string. -/
def encodeBytes : List Nat → List Nat
  | [] => []
  | [b1] => [b64Char (b1 / 4), b64Char (b1 % 4 * 16), 61, 61]
  | [b1, b2] =>
      [b64Char (b1 / 4), b64Char (b1 % 4 * 16 + b2 / 16), b64Char (b2 % 16 * 4), 61]
  | b1 :: b2 :: b3 :: rest =>
      b64Char (b1 / 4) :: b64Char (b1 % 4 * 16 + b2 / 16) ::
      b64Char (b2 % 16 * 4 + b3 / 64) :: b64Char (b3 % 64) :: encodeBytes rest

/-- ASCII whitespace byte, the `asciiSpace` set of Go `bytes.TrimSpace`
(the Unicode spaces above ASCII are not modelled; no claim uses them). -/
def isGoSpace (b : Nat) : Bool :=
  b = 9 || b = 10 || b = 11 || b = 12 || b = 13 || b = 32

/-- Go `bytes.TrimSpace` on a byte sequence (ASCII whitespace). -/
def trimSpace (l : List Nat) : List Nat :=
  ((l.dropWhile isGoSpace).reverse.dropWhile isGoSpace).reverse

/-- Go `bytes.Split(data, []byte("\n"))`: the list of chunks between
newline bytes; an empty input yields one empty chunk. -/
def splitOnNL : List Nat → List (List Nat)
  | [] => [[]]
  | b :: rest =>
    if b = 10 then [] :: splitOnNL rest
    else
      match splitOnNL rest with
      | [] => [[b]]
      | cur :: more => (b :: cur) :: more

/-- Go `strings.Split(topic, "/")` on the character list of a string
(the separator is ASCII, so splitting characters matches splitting the
UTF-8 bytes). -/
def splitOnSlash : List Char → List (List Char)
  | [] => [[]]
  | c :: rest =>
    if c = '/' then [] :: splitOnSlash rest
    else
      match splitOnSlash rest with
      | [] => [[c]]
      | cur :: more => (c :: cur) :: more

/-- Errors produced by the driver.  Errors coming from an external
collaborator (gcloud, client construction, the existence check, the
underlying publish call) are wrapped as `external` with their message.
The `invalidFormat` payload is the message of the error value wrapped by
the `%w` verb at src/main.go:109, `none` when that value is `nil`.
Message details supplied by external libraries (the base64 cause wrapped
by `decode line %d: %w` and the `%v` rendering of the duplicate list) are
elided; no claim depends on them. -/
inductive GoErr where
  | external (msg : String)
  | expectsTopic
  | expectsData
  | invalidFormat (wrapped : Option String)
  | topicNotFound (topicStr : String)
  | decodeLine (idx : Nat)
  | noData
  | duplicates (dups : List (List Nat))
  | publishMsg (idx : Nat) (cause : GoErr)
  deriving DecidableEq, Repr

/-- The message of an error, following the `fmt.Errorf` format strings in
src/main.go.  A `%w` applied to a `nil` error renders as the
`%!w(<nil>)` artifact, which is what `invalidFormat none` produces. -/
def errMsg : GoErr → String
  | .external s => s
  | .expectsTopic => "expects topic as first argument"
  | .expectsData => "expects data as second argument"
  | .invalidFormat none =>
      "invalid format: expects projects/PROJECT_ID/topics/NAME: %!w(<nil>)"
  | .invalidFormat (some s) =>
      "invalid format: expects projects/PROJECT_ID/topics/NAME: " ++ s
  | .topicNotFound t => "topic not found: " ++ t
  | .decodeLine i => "decode line " ++ toString i
  | .noData => "no data to publish"
  | .duplicates _ => "duplicates found"
  | .publishMsg i c => "publish msg " ++ toString i ++ ": " ++ errMsg c

/-- The loop of the piped branch of `getData` (src/main.go:189-200):
trim each line, skip blank lines, decode the rest; a decode failure
reports the index of the line in the original split. -/
def pipedLines : List (List Nat) → Nat → Except GoErr (List (List Nat))
  | [], _ => .ok []
  | line :: rest, idx =>
    if trimSpace line = [] then pipedLines rest (idx + 1)
    else
      match decodeBytes (trimSpace line) with
      | none => .error (.decodeLine idx)
      | some data =>
        match pipedLines rest (idx + 1) with
        | .error e => .error e
        | .ok out => .ok (data :: out)

/-- The piped branch of `getData`: split standard input on newline and run
the line loop from index 0. -/
def getDataPiped (stdin : String) : Except GoErr (List (List Nat)) :=
  pipedLines (splitOnNL (strBytes stdin)) 0

/-- `getData` (src/main.go:177-214).  `stdin` is the content of standard
input, read only when the argument is `-`.  On the single-argument path a
base64 decode is attempted and a failure falls back to the raw bytes. -/
def getData (strData : String) (stdin : String) : Except GoErr (List (List Nat)) :=
  if strData = "-" then getDataPiped stdin
  else
    match decodeBytes (strBytes strData) with
    | some data => .ok [data]
    | none => .ok [strBytes strData]

/-- Occurrences of a payload in a batch, by byte equality.  This is the
count the `lo.FindDuplicatesBy` key map induces for the key
`string(msg)`. -/
def cnt (x : List Nat) : List (List Nat) → Nat
  | [] => 0
  | y :: rest => (if y = x then 1 else 0) + cnt x rest

/-- Second pass of `lo.FindDuplicatesBy`: emit each element whose key
occurs at least twice in the whole batch, first occurrence only
(`emitted` records the keys already emitted, mirroring the map entry
being reset). -/
def dupScan (orig : List (List Nat)) : List (List Nat) → List (List Nat) → List (List Nat)
  | [], _ => []
  | m :: rest, emitted =>
    if 2 ≤ cnt m orig ∧ m ∉ emitted then m :: dupScan orig rest (m :: emitted)
    else dupScan orig rest emitted

/-- `lo.FindDuplicatesBy(msgs, func(msg []byte) string { return string(msg) })`
(src/main.go:138): the first occurrence of every payload that appears at
least twice, in batch order, keyed on the exact byte sequence. -/
def findDuplicates (msgs : List (List Nat)) : List (List Nat) :=
  dupScan msgs msgs []

/-- Externally visible calls made by a run: the topic existence check and
the per-message publish attempts. -/
inductive Event where
  | existsCheck (project name : String)
  | publish (idx : Nat) (data : List Nat)
  deriving DecidableEq, Repr

/-- Inputs of a run: flags, positional arguments, standard input, and the
responses of the external collaborators. -/
structure Env where
  projectFlag : String
  listFlag : Bool
  topicArg : String
  dataArg : String
  stdin : String
  gcloudProject : Except String String
  newClientErr : Option String
  topics : List String
  existsResult : String → String → Except String Bool
  publishResult : Nat → List Nat → Except String String
  elapsed : String

deriving instance DecidableEq for Except

/-- Result, stdout lines and call trace of a run. -/
structure RunOut where
  result : Except GoErr Unit
  stdout : List String
  events : List Event
  deriving DecidableEq, Repr

/-- `getProject` (src/main.go:37-50): the `-project` flag when set,
otherwise the trimmed gcloud output together with its error. -/
def getProject (env : Env) : Except GoErr String :=
  if env.projectFlag ≠ "" then .ok env.projectFlag
  else
    match env.gcloudProject with
    | .ok s => .ok s
    | .error msg => .error (.external msg)

/-- `Topic.String()` of the pubsub client: the fully qualified path of a
resolved topic. -/
def topicString (project name : String) : String :=
  "projects/" ++ project ++ "/topics/" ++ name

/-- Topic resolution (src/main.go:104-115) as the resolved
`(project, name)` pair.  When the argument contains a slash it must split
into exactly four segments, of which the second and fourth are used; the
format error wraps `errVar`, the message of the `err` variable in scope
at src/main.go:109.  No other property of the segments is checked. -/
def resolveTopic (project : String) (topicArg : String) (errVar : Option String) :
    Except GoErr (String × String) :=
  if topicArg.data.contains '/' then
    if (splitOnSlash topicArg.data).length = 4 then
      .ok (⟨(splitOnSlash topicArg.data).getD 1 []⟩,
           ⟨(splitOnSlash topicArg.data).getD 3 []⟩)
    else .error (.invalidFormat errVar)
  else .ok (project, topicArg)

/-- The success line printed by src/main.go:170-173. -/
def summaryLine (bytes count : Nat) (topicStr dur : String) : String :=
  "published " ++ toString bytes ++ " bytes across " ++ toString count ++
    " message(s) to " ++ topicStr ++ " in " ++ dur

/-- Modelled from the spec: the summary line shape the specification
states, with the topic before the message count.  Used only to compare
the specified shape with the implemented one. -/
def specSummaryLine (bytes count : Nat) (topicStr dur : String) : String :=
  "published " ++ toString bytes ++ " bytes to " ++ topicStr ++ " across " ++
    toString count ++ " message(s) in " ++ dur

/-- First failing publish in index order.  In the program the publishes
run concurrently and `pool.Wait` surfaces an error whenever some task
failed; which failing task wins is scheduling dependent, and no claim
depends on the choice, so the model picks the least index. -/
def firstPubError (f : Nat → List Nat → Except String String) :
    List (List Nat) → Nat → Option (Nat × String)
  | [], _ => none
  | m :: rest, idx =>
    match f idx m with
    | .error e => some (idx, e)
    | .ok _ => firstPubError f rest (idx + 1)

/-- `realMain` (src/main.go:68-175).  The branches follow the source
order: project discovery, client construction, the `-list` mode, the two
argument checks, topic resolution, the existence check, `getData`, the
empty-batch check, the duplicate check, and the publish fan-out.  At the
topic-resolution step the `err` variable of the source is `nil`, because
both earlier assignments to it returned on a non-nil value; the literal
`none` passed to `resolveTopic` mirrors that state. -/
def realMain (env : Env) : RunOut :=
  match getProject env with
  | .error e => ⟨.error e, [], []⟩
  | .ok project =>
    match env.newClientErr with
    | some msg => ⟨.error (.external msg), [], []⟩
    | none =>
      if env.listFlag then ⟨.ok (), env.topics, []⟩
      else if env.topicArg = "" then ⟨.error .expectsTopic, [], []⟩
      else if env.dataArg = "" then ⟨.error .expectsData, [], []⟩
      else
        match resolveTopic project env.topicArg none with
        | .error e => ⟨.error e, [], []⟩
        | .ok (tProject, tName) =>
          match env.existsResult tProject tName with
          | .error msg =>
              ⟨.error (.external msg), [], [.existsCheck tProject tName]⟩
          | .ok false =>
              ⟨.error (.topicNotFound (topicString tProject tName)), [],
                [.existsCheck tProject tName]⟩
          | .ok true =>
            match getData env.dataArg env.stdin with
            | .error e => ⟨.error e, [], [.existsCheck tProject tName]⟩
            | .ok msgs =>
              if msgs.length = 0 then
                ⟨.error .noData, [], [.existsCheck tProject tName]⟩
              else if findDuplicates msgs = [] then
                match firstPubError env.publishResult msgs 0 with
                | some (idx, e) =>
                    ⟨.error (.publishMsg idx (.external e)), [],
                      .existsCheck tProject tName ::
                        msgs.enum.map (fun p => Event.publish p.1 p.2)⟩
                | none =>
                    ⟨.ok (),
                      [summaryLine ((msgs.map List.length).sum) msgs.length
                        (topicString tProject tName) env.elapsed],
                      .existsCheck tProject tName ::
                        msgs.enum.map (fun p => Event.publish p.1 p.2)⟩
              else
                ⟨.error (.duplicates (findDuplicates msgs)), [],
                  [.existsCheck tProject tName]⟩

/-- A run in which every external collaborator succeeds: project `p1`,
topic `t1` given by short name, data `aGk=` (base64 for `hi`). -/
def benignEnv : Env :=
  { projectFlag := "p1", listFlag := false, topicArg := "t1", dataArg := "aGk=",
    stdin := "", gcloudProject := .ok "p1", newClientErr := none, topics := [],
    existsResult := fun _ _ => .ok true, publishResult := fun _ _ => .ok "id1",
    elapsed := "1s" }

/-- Piped input with two identical payloads, against an existing topic. -/
def envC1 : Env := { benignEnv with dataArg := "-", stdin := "aGk=\naGk=" }

/-- A fully qualified topic with a five-byte payload (base64 for `hello`). -/
def envC2 : Env :=
  { benignEnv with topicArg := "projects/p1/topics/t1", dataArg := "aGVsbG8=" }

/-- A four-segment topic whose first and third segments are not the
literals `projects` and `topics`. -/
def envC3 : Env := { benignEnv with topicArg := "a/b/c/d" }

/-- A three-segment topic argument. -/
def envC3w : Env := { benignEnv with topicArg := "a/b/c" }

/-- Piped input with two identical payloads. -/
def envC6 : Env := { benignEnv with dataArg := "-", stdin := "aGk=\naGk=" }

/-- Piped input consisting only of blank lines. -/
def envC7 : Env := { benignEnv with dataArg := "-", stdin := "\n \n" }

/-- A single non-piped payload. -/
def envC9 : Env := { benignEnv with dataArg := "aGVsbG8=" }

/-- A two-segment topic argument. -/
def envC10 : Env := { benignEnv with topicArg := "x/y" }

theorem b64Index_b64Char (i : Nat) (h : i < 64) : b64Index (b64Char i) = some i := by
  have hf : ∀ j : Fin 64, b64Index (b64Char j.val) = some j.val := by decide
  exact hf ⟨i, h⟩

theorem b64Index_61 : b64Index 61 = none := by decide

theorem b64Char_ge (i : Nat) : 43 ≤ b64Char i := by
  unfold b64Char
  repeat' split
  all_goals omega

theorem notNL_of_ge {b : Nat} (h : 43 ≤ b) : notNL b = true := by
  simp only [notNL, Bool.and_eq_true, ne_eq, decide_not, Bool.not_eq_true',
    decide_eq_false_iff_not]
  omega

theorem notNL_61 : notNL 61 = true := by decide

theorem encodeBytes_not_nl (bs : List Nat) : ∀ b ∈ encodeBytes bs, notNL b = true := by
  induction bs using encodeBytes.induct with
  | case1 => intro b hb; simp [encodeBytes] at hb
  | case2 b1 =>
    intro b hb
    simp only [encodeBytes, List.mem_cons, List.not_mem_nil, or_false] at hb
    rcases hb with rfl | rfl | rfl | rfl
    · exact notNL_of_ge (b64Char_ge _)
    · exact notNL_of_ge (b64Char_ge _)
    · exact notNL_61
    · exact notNL_61
  | case3 b1 b2 =>
    intro b hb
    simp only [encodeBytes, List.mem_cons, List.not_mem_nil, or_false] at hb
    rcases hb with rfl | rfl | rfl | rfl
    · exact notNL_of_ge (b64Char_ge _)
    · exact notNL_of_ge (b64Char_ge _)
    · exact notNL_of_ge (b64Char_ge _)
    · exact notNL_61
  | case4 b1 b2 b3 rest ih =>
    intro b hb
    simp only [encodeBytes, List.mem_cons] at hb
    rcases hb with rfl | rfl | rfl | rfl | hb
    · exact notNL_of_ge (b64Char_ge _)
    · exact notNL_of_ge (b64Char_ge _)
    · exact notNL_of_ge (b64Char_ge _)
    · exact notNL_of_ge (b64Char_ge _)
    · exact ih b hb

theorem dropNewlines_encodeBytes (bs : List Nat) :
    dropNewlines (encodeBytes bs) = encodeBytes bs := by
  exact List.filter_eq_self.mpr (encodeBytes_not_nl bs)

theorem decodeQuanta_encodeBytes (bs : List Nat) (h : ∀ b ∈ bs, b < 256) :
    decodeQuanta (encodeBytes bs) = some bs := by
  induction bs using encodeBytes.induct with
  | case1 => rfl
  | case2 b1 =>
    have hb1 : b1 < 256 := h b1 (by simp)
    have e1 : b64Index (b64Char (b1 / 4)) = some (b1 / 4) :=
      b64Index_b64Char _ (by omega)
    have e2 : b64Index (b64Char (b1 % 4 * 16)) = some (b1 % 4 * 16) :=
      b64Index_b64Char _ (by omega)
    simp only [encodeBytes, decodeQuanta, e1, e2, b64Index_61]
    simp only [quantum1, and_self, if_true, Option.some.injEq, List.cons.injEq,
      and_true]
    omega
  | case3 b1 b2 =>
    have hb1 : b1 < 256 := h b1 (by simp)
    have hb2 : b2 < 256 := h b2 (by simp)
    have e1 : b64Index (b64Char (b1 / 4)) = some (b1 / 4) :=
      b64Index_b64Char _ (by omega)
    have e2 : b64Index (b64Char (b1 % 4 * 16 + b2 / 16)) = some (b1 % 4 * 16 + b2 / 16) :=
      b64Index_b64Char _ (by omega)
    have e3 : b64Index (b64Char (b2 % 16 * 4)) = some (b2 % 16 * 4) :=
      b64Index_b64Char _ (by omega)
    simp only [encodeBytes, decodeQuanta, e1, e2, e3, b64Index_61]
    simp only [quantum2, and_self, if_true, Option.some.injEq, List.cons.injEq,
      and_true]
    constructor
    · omega
    · omega
  | case4 b1 b2 b3 rest ih =>
    have hb1 : b1 < 256 := h b1 (by simp)
    have hb2 : b2 < 256 := h b2 (by simp)
    have hb3 : b3 < 256 := h b3 (by simp)
    have e1 : b64Index (b64Char (b1 / 4)) = some (b1 / 4) :=
      b64Index_b64Char _ (by omega)
    have e2 : b64Index (b64Char (b1 % 4 * 16 + b2 / 16)) = some (b1 % 4 * 16 + b2 / 16) :=
      b64Index_b64Char _ (by omega)
    have e3 : b64Index (b64Char (b2 % 16 * 4 + b3 / 64)) = some (b2 % 16 * 4 + b3 / 64) :=
      b64Index_b64Char _ (by omega)
    have e4 : b64Index (b64Char (b3 % 64)) = some (b3 % 64) :=
      b64Index_b64Char _ (by omega)
    have hrest : decodeQuanta (encodeBytes rest) = some rest :=
      ih (fun b hb => h b (by simp [hb]))
    simp only [encodeBytes, decodeQuanta, e1, e2, e3, e4, hrest, Option.map_some',
      Option.some.injEq, quantum3, List.cons_append, List.nil_append,
      List.cons.injEq, and_true]
    omega

theorem decodeBytes_encodeBytes (bs : List Nat) (h : ∀ b ∈ bs, b < 256) :
    decodeBytes (encodeBytes bs) = some bs := by
  unfold decodeBytes
  rw [dropNewlines_encodeBytes]
  exact decodeQuanta_encodeBytes bs h

theorem getProject_error {env : Env} {e : GoErr} (h : getProject env = .error e) :
    ∃ s, e = .external s := by
  unfold getProject at h
  split at h
  · simp at h
  · split at h
    · simp at h
    · exact ⟨_, by injection h with h; exact h.symm⟩

theorem resolveTopic_error {project topicArg : String} {w : Option String} {e : GoErr}
    (h : resolveTopic project topicArg w = .error e) : e = .invalidFormat w := by
  unfold resolveTopic at h
  split at h
  · split at h
    · simp at h
    · injection h with h; exact h.symm
  · simp at h

theorem resolveTopic_not_four {project topicArg : String} {w : Option String}
    (hc : topicArg.data.contains '/' = true)
    (hl : (splitOnSlash topicArg.data).length ≠ 4) :
    resolveTopic project topicArg w = .error (.invalidFormat w) := by
  unfold resolveTopic
  rw [if_pos hc, if_neg hl]

theorem resolveTopic_four {project topicArg : String} {w : Option String}
    (hc : topicArg.data.contains '/' = true)
    (hl : (splitOnSlash topicArg.data).length = 4) :
    resolveTopic project topicArg w =
      .ok (⟨(splitOnSlash topicArg.data).getD 1 []⟩,
           ⟨(splitOnSlash topicArg.data).getD 3 []⟩) := by
  unfold resolveTopic
  rw [if_pos hc, if_pos hl]

theorem pipedLines_error (l : List (List Nat)) : ∀ k e, pipedLines l k = .error e →
    ∃ j, j < l.length ∧ e = .decodeLine (k + j) ∧
      trimSpace (l.getD j []) ≠ [] ∧
      decodeBytes (trimSpace (l.getD j [])) = none ∧
      ∀ i, i < j → trimSpace (l.getD i []) = [] ∨
        (decodeBytes (trimSpace (l.getD i []))).isSome = true := by
  induction l with
  | nil => intro k e h; simp [pipedLines] at h
  | cons line rest ih =>
    intro k e h
    simp only [pipedLines] at h
    split at h
    · next hb =>
      obtain ⟨j, hj, he, hnb, hdec, hpre⟩ := ih (k + 1) e h
      refine ⟨j + 1, by simpa using hj, ?_, by simpa using hnb, by simpa using hdec, ?_⟩
      · rw [he]; congr 1; omega
      · intro i hi
        match i with
        | 0 => left; simpa using hb
        | i' + 1 =>
          have := hpre i' (by omega)
          simpa using this
    · next hb =>
      split at h
      · next hdec =>
        injection h with h
        refine ⟨0, by simp, by rw [← h]; rfl, by simpa using hb,
          by simpa using hdec, by omega⟩
      · next data hdec =>
        split at h
        · next e' hrec =>
          injection h with h
          subst h
          obtain ⟨j, hj, he, hnb, hdec', hpre⟩ := ih (k + 1) e' hrec
          refine ⟨j + 1, by simpa using hj, ?_, by simpa using hnb,
            by simpa using hdec', ?_⟩
          · rw [he]; congr 1; omega
          · intro i hi
            match i with
            | 0 => right; simp [hdec]
            | i' + 1 =>
              have := hpre i' (by omega)
              simpa using this
        · simp at h

theorem pipedLines_ok (l : List (List Nat)) : ∀ k out, pipedLines l k = .ok out →
    out = l.filterMap
      (fun line => if trimSpace line = [] then none else decodeBytes (trimSpace line)) := by
  induction l with
  | nil =>
    intro k out h
    simp only [pipedLines] at h
    injection h with h
    simp [← h]
  | cons line rest ih =>
    intro k out h
    simp only [pipedLines] at h
    split at h
    · next hb =>
      rw [List.filterMap_cons, if_pos hb]
      exact ih (k + 1) out h
    · next hb =>
      split at h
      · simp at h
      · next data hdec =>
        split at h
        · simp at h
        · next out' hrec =>
          injection h with h
          rw [List.filterMap_cons, if_neg hb, hdec, ← h]
          exact congrArg (data :: ·) (ih (k + 1) out' hrec)


theorem cnt_pos_iff_mem (x : List Nat) (l : List (List Nat)) : 0 < cnt x l ↔ x ∈ l := by
  induction l with
  | nil => simp [cnt]
  | cons y r ih =>
    simp only [cnt, List.mem_cons]
    split
    · next hyx => subst hyx; simp
    · next hyx =>
      simp only [Nat.zero_add, ih]
      constructor
      · exact Or.inr
      · rintro (rfl | hm)
        · exact absurd rfl hyx
        · exact hm

theorem cnt_eq_zero_of_not_mem {x : List Nat} {l : List (List Nat)} (h : x ∉ l) :
    cnt x l = 0 := by
  have h2 : ¬ 0 < cnt x l := fun hp => h ((cnt_pos_iff_mem x l).mp hp)
  omega

theorem nodup_iff_cnt (l : List (List Nat)) : l.Nodup ↔ ∀ x, cnt x l ≤ 1 := by
  induction l with
  | nil => simp [cnt]
  | cons y r ih =>
    rw [List.nodup_cons, ih]
    constructor
    · rintro ⟨hy, hr⟩ x
      simp only [cnt]
      split
      · next hyx =>
        subst hyx
        have := cnt_eq_zero_of_not_mem hy
        omega
      · have := hr x
        omega
    · intro hx
      constructor
      · intro hmem
        have h1 := hx y
        have h2 := (cnt_pos_iff_mem y r).mpr hmem
        simp [cnt] at h1
        omega
      · intro x
        have h1 := hx x
        simp only [cnt] at h1
        split at h1 <;> omega

theorem dupScan_eq_nil_forall (orig : List (List Nat)) :
    ∀ l emitted, dupScan orig l emitted = [] →
      ∀ m ∈ l, m ∈ emitted ∨ cnt m orig ≤ 1 := by
  intro l
  induction l with
  | nil => intro emitted h m hm; simp at hm
  | cons a r ih =>
    intro emitted h m hm
    simp only [dupScan] at h
    split at h
    · simp at h
    · next hcond =>
      rcases List.mem_cons.mp hm with rfl | hm'
      · by_cases he : m ∈ emitted
        · exact Or.inl he
        · right
          by_cases hc : 2 ≤ cnt m orig
          · exact absurd ⟨hc, he⟩ hcond
          · omega
      · exact ih emitted h m hm'

theorem dupScan_eq_nil (orig : List (List Nat)) (hall : ∀ m, cnt m orig ≤ 1) :
    ∀ l emitted, dupScan orig l emitted = [] := by
  intro l
  induction l with
  | nil => intro emitted; rfl
  | cons a r ih =>
    intro emitted
    simp only [dupScan]
    rw [if_neg]
    · exact ih emitted
    · rintro ⟨h2, _⟩
      have := hall a
      omega

theorem mem_dupScan (orig : List (List Nat)) :
    ∀ l emitted m, m ∈ dupScan orig l emitted → 2 ≤ cnt m orig := by
  intro l
  induction l with
  | nil => intro emitted m hm; simp [dupScan] at hm
  | cons a r ih =>
    intro emitted m hm
    simp only [dupScan] at hm
    split at hm
    · next hcond =>
      rcases List.mem_cons.mp hm with rfl | hm'
      · exact hcond.1
      · exact ih _ m hm'
    · exact ih emitted m hm

theorem findDuplicates_eq_nil_iff (msgs : List (List Nat)) :
    findDuplicates msgs = [] ↔ msgs.Nodup := by
  constructor
  · intro h
    rw [nodup_iff_cnt]
    intro x
    by_cases hm : x ∈ msgs
    · rcases dupScan_eq_nil_forall msgs msgs [] h x hm with he | hc
      · simp at he
      · exact hc
    · have := cnt_eq_zero_of_not_mem hm
      omega
  · intro h
    exact dupScan_eq_nil msgs ((nodup_iff_cnt msgs).mp h) msgs []

theorem findDuplicates_cnt (msgs : List (List Nat)) :
    ∀ d ∈ findDuplicates msgs, 2 ≤ cnt d msgs :=
  fun d hd => mem_dupScan msgs msgs [] d hd

theorem findDuplicates_single (m : List Nat) : findDuplicates [m] = [] :=
  (findDuplicates_eq_nil_iff [m]).mpr (List.nodup_singleton m)

theorem getData_single (s stdin : String) (h : s ≠ "-") :
    getData s stdin = .ok [(decodeBytes (strBytes s)).getD (strBytes s)] := by
  unfold getData
  rw [if_neg h]
  cases hd : decodeBytes (strBytes s) <;> simp [hd]

theorem getData_error_shape {s stdin : String} {e : GoErr}
    (h : getData s stdin = .error e) : ∃ i, e = .decodeLine i := by
  unfold getData at h
  split at h
  · obtain ⟨j, _, he, _⟩ := pipedLines_error _ 0 e h
    exact ⟨j, by simpa using he⟩
  · split at h <;> simp at h

/-- C4 (amended): encoding any byte sequence and decoding the result gives
the bytes back, so decode-then-encode reproduces every string that is the
canonical base64 encoding of its content; and for every string the decoder
rejects, the single-argument path uses the raw argument bytes unchanged.
(The decoder also accepts some non-canonical strings, for which the
round-trip fails; see the counterexample.) -/
theorem c4_base64_roundtrip :
    (∀ bs : List Nat, (∀ b ∈ bs, b < 256) → decodeBytes (encodeBytes bs) = some bs)
    ∧ ∀ s stdin : String, s ≠ "-" → decodeBytes (strBytes s) = none →
        getData s stdin = .ok [strBytes s] := by
  constructor
  · exact decodeBytes_encodeBytes
  · intro s stdin hs hd
    rw [getData_single s stdin hs, hd]
    rfl

/-- C4 witness: the round-trip at the bytes of `hi`, and the raw fallback
at the non-base64 string `!!`. -/
theorem c4_base64_roundtrip_witness :
    decodeBytes (encodeBytes [104, 105]) = some [104, 105] ∧
      getData "!!" "" = .ok [strBytes "!!"] :=
  ⟨c4_base64_roundtrip.1 [104, 105] (by decide),
   c4_base64_roundtrip.2 "!!" "" (by decide) (by decide)⟩

/-- C4 counterexample: the decoder accepts the string `aGVs\nbG8=` (an
embedded newline is skipped, as the Go decoder does), decoding it to the
bytes of `hello`, but re-encoding those bytes yields the canonical
`aGVsbG8=`, not the original string.  So decode-then-encode does not
reproduce every accepted input. -/
theorem c4_base64_counterexample :
    decodeBytes (strBytes "aGVs\nbG8=") = some (strBytes "hello") ∧
      encodeBytes (strBytes "hello") ≠ strBytes "aGVs\nbG8=" := by
  decide

/-- C5 (confirmed): piped input is split on newline; a decode error names
the index of the failing line in the original split, every earlier line
being blank or decodable (so skipped blanks do not shift the index); and
on success the batch is exactly the decoded non-blank trimmed lines in
order. -/
theorem c5_piped_input (stdin : String) :
    (∀ e, getDataPiped stdin = .error e →
      ∃ j, j < (splitOnNL (strBytes stdin)).length ∧ e = .decodeLine j ∧
        trimSpace ((splitOnNL (strBytes stdin)).getD j []) ≠ [] ∧
        decodeBytes (trimSpace ((splitOnNL (strBytes stdin)).getD j [])) = none ∧
        ∀ i, i < j → trimSpace ((splitOnNL (strBytes stdin)).getD i []) = [] ∨
          (decodeBytes (trimSpace ((splitOnNL (strBytes stdin)).getD i []))).isSome = true)
    ∧ ∀ out, getDataPiped stdin = .ok out →
        out = (splitOnNL (strBytes stdin)).filterMap
          (fun line => if trimSpace line = [] then none
                       else decodeBytes (trimSpace line)) := by
  constructor
  · intro e h
    obtain ⟨j, hj, he, hnb, hdec, hpre⟩ := pipedLines_error _ 0 e h
    exact ⟨j, hj, by simpa using he, hnb, hdec, hpre⟩
  · intro out h
    exact pipedLines_ok _ 0 out h

/-- C5 witness: input `aGk=\n \n!!!!` fails on the third line (index 2),
unaffected by the blank line at index 1. -/
theorem c5_piped_input_witness :
    getDataPiped "aGk=\n \n!!!!" = .error (.decodeLine 2) ∧
      (∃ j, j < (splitOnNL (strBytes "aGk=\n \n!!!!")).length ∧
        GoErr.decodeLine 2 = .decodeLine j ∧
        trimSpace ((splitOnNL (strBytes "aGk=\n \n!!!!")).getD j []) ≠ [] ∧
        decodeBytes (trimSpace ((splitOnNL (strBytes "aGk=\n \n!!!!")).getD j [])) = none ∧
        ∀ i, i < j →
          trimSpace ((splitOnNL (strBytes "aGk=\n \n!!!!")).getD i []) = [] ∨
          (decodeBytes (trimSpace ((splitOnNL (strBytes "aGk=\n \n!!!!")).getD i []))).isSome
            = true) :=
  ⟨by decide, (c5_piped_input "aGk=\n \n!!!!").1 (.decodeLine 2) (by decide)⟩

/-- C8 (confirmed): every non-piped data argument yields exactly the
decoded bytes when decoding succeeds and the raw argument bytes otherwise;
this path always returns a successful single-payload batch, never an
error. -/
theorem c8_single_fallback (s stdin : String) (h : s ≠ "-") :
    getData s stdin = .ok [(decodeBytes (strBytes s)).getD (strBytes s)] :=
  getData_single s stdin h

/-- C8 witness: the non-base64 argument `!!` falls back to its raw bytes
without an error. -/
theorem c8_single_fallback_witness :
    getData "!!" "" = .ok [(decodeBytes (strBytes "!!")).getD (strBytes "!!")] :=
  c8_single_fallback "!!" "" (by decide)

theorem realMain_noData (env : Env) {project tP tN : String}
    (hproj : getProject env = .ok project) (hclient : env.newClientErr = none)
    (hlist : env.listFlag = false) (htopic : ¬ env.topicArg = "")
    (hdata : ¬ env.dataArg = "")
    (hres : resolveTopic project env.topicArg none = .ok (tP, tN))
    (hex : env.existsResult tP tN = .ok true)
    (hget : getData env.dataArg env.stdin = .ok []) :
    realMain env = ⟨.error .noData, [], [.existsCheck tP tN]⟩ := by
  simp only [realMain, hproj, hclient, hlist, htopic, hdata, hres, hex, hget]
  simp

theorem realMain_duplicates (env : Env) {project tP tN : String}
    {msgs : List (List Nat)}
    (hproj : getProject env = .ok project) (hclient : env.newClientErr = none)
    (hlist : env.listFlag = false) (htopic : ¬ env.topicArg = "")
    (hdata : ¬ env.dataArg = "")
    (hres : resolveTopic project env.topicArg none = .ok (tP, tN))
    (hex : env.existsResult tP tN = .ok true)
    (hget : getData env.dataArg env.stdin = .ok msgs)
    (hne : msgs ≠ []) (hdup : findDuplicates msgs ≠ []) :
    realMain env =
      ⟨.error (.duplicates (findDuplicates msgs)), [], [.existsCheck tP tN]⟩ := by
  simp only [realMain, hproj, hclient, hlist, htopic, hdata, hres, hex, hget]
  simp [List.length_eq_zero, hne, hdup]

theorem realMain_success (env : Env) {project tP tN : String}
    {msgs : List (List Nat)}
    (hproj : getProject env = .ok project) (hclient : env.newClientErr = none)
    (hlist : env.listFlag = false) (htopic : ¬ env.topicArg = "")
    (hdata : ¬ env.dataArg = "")
    (hres : resolveTopic project env.topicArg none = .ok (tP, tN))
    (hex : env.existsResult tP tN = .ok true)
    (hget : getData env.dataArg env.stdin = .ok msgs)
    (hne : msgs ≠ []) (hdup : findDuplicates msgs = [])
    (hpub : firstPubError env.publishResult msgs 0 = none) :
    realMain env =
      ⟨.ok (),
        [summaryLine ((msgs.map List.length).sum) msgs.length
          (topicString tP tN) env.elapsed],
        .existsCheck tP tN :: msgs.enum.map (fun p => Event.publish p.1 p.2)⟩ := by
  simp only [realMain, hproj, hclient, hlist, htopic, hdata, hres, hex, hget]
  simp [List.length_eq_zero, hne, hdup, hpub]

/-- C2 counterexample: on a fully successful run the single stdout line
reads `published <N> bytes across <M> message(s) to <topic> in <duration>`,
which differs from the order stated by the claim,
`published <N> bytes to <topic> across <M> message(s) in <duration>`. -/
theorem c2_summary_counterexample :
    (realMain envC2).stdout =
      ["published 5 bytes across 1 message(s) to projects/p1/topics/t1 in 1s"] ∧
      (realMain envC2).stdout ≠ [specSummaryLine 5 1 "projects/p1/topics/t1" "1s"] := by
  decide

/-- C2 (amended): on a fully successful publish run (not in list mode) the
driver writes exactly one stdout line, `summaryLine`, which reports the
total bytes, then the message count, then the topic, then the elapsed
time — in that order. -/
theorem c2_summary_output (env : Env) {project tP tN : String}
    {msgs : List (List Nat)}
    (hproj : getProject env = .ok project) (hclient : env.newClientErr = none)
    (hlist : env.listFlag = false) (htopic : ¬ env.topicArg = "")
    (hdata : ¬ env.dataArg = "")
    (hres : resolveTopic project env.topicArg none = .ok (tP, tN))
    (hex : env.existsResult tP tN = .ok true)
    (hget : getData env.dataArg env.stdin = .ok msgs)
    (hne : msgs ≠ []) (hdup : findDuplicates msgs = [])
    (hpub : firstPubError env.publishResult msgs 0 = none) :
    (realMain env).stdout =
      [summaryLine ((msgs.map List.length).sum) msgs.length
        (topicString tP tN) env.elapsed] ∧
    summaryLine ((msgs.map List.length).sum) msgs.length
        (topicString tP tN) env.elapsed =
      "published " ++ toString ((msgs.map List.length).sum) ++ " bytes across " ++
        toString msgs.length ++ " message(s) to " ++ topicString tP tN ++
        " in " ++ env.elapsed := by
  rw [realMain_success env hproj hclient hlist htopic hdata hres hex hget hne hdup hpub]
  exact ⟨rfl, rfl⟩

/-- C2 witness: the concrete successful run of `envC2`, publishing the
five bytes of `hello`. -/
theorem c2_summary_output_witness :
    (realMain envC2).stdout =
      [summaryLine (([[104, 101, 108, 108, 111]].map List.length).sum)
        ([[104, 101, 108, 108, 111]] : List (List Nat)).length
        (topicString "p1" "t1") envC2.elapsed] ∧
    summaryLine (([[104, 101, 108, 108, 111]].map List.length).sum)
        ([[104, 101, 108, 108, 111]] : List (List Nat)).length
        (topicString "p1" "t1") envC2.elapsed =
      "published " ++ toString (([[104, 101, 108, 108, 111]].map List.length).sum) ++
        " bytes across " ++
        toString ([[104, 101, 108, 108, 111]] : List (List Nat)).length ++
        " message(s) to " ++ topicString "p1" "t1" ++ " in " ++ envC2.elapsed :=
  c2_summary_output envC2
    (show getProject envC2 = .ok "p1" by decide)
    (show envC2.newClientErr = none by decide)
    (show envC2.listFlag = false by decide)
    (show ¬ envC2.topicArg = "" by decide)
    (show ¬ envC2.dataArg = "" by decide)
    (show resolveTopic "p1" envC2.topicArg none = .ok ("p1", "t1") by decide)
    (show envC2.existsResult "p1" "t1" = .ok true by decide)
    (show getData envC2.dataArg envC2.stdin = .ok [[104, 101, 108, 108, 111]] by decide)
    (show ([[104, 101, 108, 108, 111]] : List (List Nat)) ≠ [] by decide)
    (show findDuplicates [[104, 101, 108, 108, 111]] = [] by decide)
    (show firstPubError envC2.publishResult [[104, 101, 108, 108, 111]] 0 = none by decide)

/-- C3 counterexample: the four-segment topic `a/b/c/d`, whose first and
third segments are not the literals `projects` and `topics`, is accepted:
the run resolves project `b` and topic `d`, checks existence and
publishes, instead of failing with a format error. -/
theorem c3_segments_counterexample :
    realMain envC3 =
      ⟨.ok (), ["published 2 bytes across 1 message(s) to projects/b/topics/d in 1s"],
        [.existsCheck "b" "d", .publish 0 [104, 105]]⟩ := by
  decide

/-- C3 (amended): a slash-containing topic argument is accepted exactly
when it has four slash-separated segments — the second becoming the
project and the fourth the topic name, with no check of the literal first
and third segments — and any other segment count is a fatal format error
returned before any existence check or publish attempt (the event trace
is empty). -/
theorem c3_segment_count (env : Env) {project : String}
    (hproj : getProject env = .ok project) (hclient : env.newClientErr = none)
    (hlist : env.listFlag = false) (htopic : ¬ env.topicArg = "")
    (hdata : ¬ env.dataArg = "")
    (hslash : env.topicArg.data.contains '/' = true) :
    ((splitOnSlash env.topicArg.data).length ≠ 4 →
      realMain env = ⟨.error (.invalidFormat none), [], []⟩)
    ∧ ((splitOnSlash env.topicArg.data).length = 4 →
      resolveTopic project env.topicArg none =
        .ok (⟨(splitOnSlash env.topicArg.data).getD 1 []⟩,
             ⟨(splitOnSlash env.topicArg.data).getD 3 []⟩)) := by
  constructor
  · intro hlen
    have hres := @resolveTopic_not_four project env.topicArg none hslash hlen
    simp only [realMain, hproj, hclient, hlist, htopic, hdata, hres]
    simp
  · intro hlen
    exact resolveTopic_four hslash hlen

/-- C3 witness: the three-segment topic `a/b/c` fails with the format
error before any existence check or publish. -/
theorem c3_segment_count_witness :
    realMain envC3w = ⟨.error (.invalidFormat none), [], []⟩ :=
  (c3_segment_count envC3w
    (show getProject envC3w = .ok "p1" by decide)
    (show envC3w.newClientErr = none by decide)
    (show envC3w.listFlag = false by decide)
    (show ¬ envC3w.topicArg = "" by decide)
    (show ¬ envC3w.dataArg = "" by decide)
    (show envC3w.topicArg.data.contains '/' = true by decide)).1 (by decide)

/-- C6 (confirmed): when the decoded batch contains two byte-identical
payloads on a run that reached validation, the driver fails with the
duplicates error before any publish attempt (the trace holds only the
existence check); the reported list is non-empty, duplicate detection is
exact — it is empty precisely when the batch has no two identical
payloads — and every listed value really occurs at least twice. -/
theorem c6_duplicate_batch (env : Env) {project tP tN : String}
    {msgs : List (List Nat)}
    (hproj : getProject env = .ok project) (hclient : env.newClientErr = none)
    (hlist : env.listFlag = false) (htopic : ¬ env.topicArg = "")
    (hdata : ¬ env.dataArg = "")
    (hres : resolveTopic project env.topicArg none = .ok (tP, tN))
    (hex : env.existsResult tP tN = .ok true)
    (hget : getData env.dataArg env.stdin = .ok msgs)
    (hdup : ¬ msgs.Nodup) :
    realMain env =
      ⟨.error (.duplicates (findDuplicates msgs)), [], [.existsCheck tP tN]⟩
    ∧ findDuplicates msgs ≠ []
    ∧ (∀ l : List (List Nat), findDuplicates l = [] ↔ l.Nodup)
    ∧ ∀ d ∈ findDuplicates msgs, 2 ≤ cnt d msgs := by
  have hne : findDuplicates msgs ≠ [] :=
    fun hnil => hdup ((findDuplicates_eq_nil_iff msgs).mp hnil)
  have hmsgs : msgs ≠ [] := by
    rintro rfl
    exact hdup List.nodup_nil
  exact ⟨realMain_duplicates env hproj hclient hlist htopic hdata hres hex hget
      hmsgs hne,
    hne, findDuplicates_eq_nil_iff, findDuplicates_cnt msgs⟩

/-- C6 witness: the piped batch `aGk=\naGk=` (the bytes of `hi` twice)
fails with the duplicates error after only the existence check. -/
theorem c6_duplicate_batch_witness :
    realMain envC6 =
      ⟨.error (.duplicates (findDuplicates [[104, 105], [104, 105]])), [],
        [.existsCheck "p1" "t1"]⟩ :=
  (c6_duplicate_batch envC6
    (show getProject envC6 = .ok "p1" by decide)
    (show envC6.newClientErr = none by decide)
    (show envC6.listFlag = false by decide)
    (show ¬ envC6.topicArg = "" by decide)
    (show ¬ envC6.dataArg = "" by decide)
    (show resolveTopic "p1" envC6.topicArg none = .ok ("p1", "t1") by decide)
    (show envC6.existsResult "p1" "t1" = .ok true by decide)
    (show getData envC6.dataArg envC6.stdin = .ok [[104, 105], [104, 105]] by decide)
    (show ¬ ([[104, 105], [104, 105]] : List (List Nat)).Nodup by decide)).1

/-- C7 (confirmed): when the decoded batch is empty on a run that reached
validation, the driver fails with the error whose message is exactly
`no data to publish`, and no publish attempt appears in the trace. -/
theorem c7_empty_batch (env : Env) {project tP tN : String}
    (hproj : getProject env = .ok project) (hclient : env.newClientErr = none)
    (hlist : env.listFlag = false) (htopic : ¬ env.topicArg = "")
    (hdata : ¬ env.dataArg = "")
    (hres : resolveTopic project env.topicArg none = .ok (tP, tN))
    (hex : env.existsResult tP tN = .ok true)
    (hget : getData env.dataArg env.stdin = .ok []) :
    realMain env = ⟨.error .noData, [], [.existsCheck tP tN]⟩
    ∧ errMsg .noData = "no data to publish"
    ∧ ∀ i d, Event.publish i d ∉ (realMain env).events := by
  have h := realMain_noData env hproj hclient hlist htopic hdata hres hex hget
  refine ⟨h, rfl, ?_⟩
  intro i d hmem
  rw [h] at hmem
  simp at hmem

/-- C7 witness: piped input of blank lines only fails with
`no data to publish`. -/
theorem c7_empty_batch_witness :
    realMain envC7 = ⟨.error .noData, [], [.existsCheck "p1" "t1"]⟩ ∧
      errMsg .noData = "no data to publish" :=
  have h := c7_empty_batch envC7
    (show getProject envC7 = .ok "p1" by decide)
    (show envC7.newClientErr = none by decide)
    (show envC7.listFlag = false by decide)
    (show ¬ envC7.topicArg = "" by decide)
    (show ¬ envC7.dataArg = "" by decide)
    (show resolveTopic "p1" envC7.topicArg none = .ok ("p1", "t1") by decide)
    (show envC7.existsResult "p1" "t1" = .ok true by decide)
    (show getData envC7.dataArg envC7.stdin = .ok [] by decide)
  ⟨h.1, h.2.1⟩

/-- C1 counterexample: a run whose piped data contains a duplicate payload
returns the duplicate-validation error, yet the topic existence check was
already attempted — so validation errors are not returned before topic
resolution and the existence check. -/
theorem c1_pipeline_counterexample :
    realMain envC1 =
      ⟨.error (.duplicates [[104, 105]]), [], [.existsCheck "p1" "t1"]⟩ ∧
      Event.existsCheck "p1" "t1" ∈ (realMain envC1).events := by
  decide

/-- C1 (amended): the pipeline order is ResolveTopic, CheckExists, Parse,
Validate, Dispatch.  Every run that fails validation (empty batch or
duplicate payloads) has already resolved the topic and passed the
existence check — its trace is exactly one existence-check event — and no
publish was attempted; in every run the trace is empty or starts with the
existence check followed only by publish events. -/
theorem c1_pipeline_order (env : Env) {res : Except GoErr Unit}
    {out : List String} {ev : List Event}
    (h : realMain env = ⟨res, out, ev⟩) :
    ((res = .error .noData ∨ ∃ d, res = .error (.duplicates d)) →
      ∃ tP tN, ev = [Event.existsCheck tP tN])
    ∧ (ev = [] ∨ ∃ tP tN rest, ev = Event.existsCheck tP tN :: rest ∧
        ∀ e ∈ rest, ∃ i m, e = Event.publish i m) := by
  unfold realMain at h
  split at h
  case h_1 e hp =>
    cases h
    refine ⟨?_, Or.inl rfl⟩
    obtain ⟨s, rfl⟩ := getProject_error hp
    rintro (hv | ⟨d, hv⟩) <;> simp at hv
  case h_2 project hp =>
    split at h
    case h_1 msg hc =>
      cases h
      refine ⟨?_, Or.inl rfl⟩
      rintro (hv | ⟨d, hv⟩) <;> simp at hv
    case h_2 hc =>
      split at h
      · cases h
        refine ⟨?_, Or.inl rfl⟩
        rintro (hv | ⟨d, hv⟩) <;> simp at hv
      · split at h
        · cases h
          refine ⟨?_, Or.inl rfl⟩
          rintro (hv | ⟨d, hv⟩) <;> simp at hv
        · split at h
          · cases h
            refine ⟨?_, Or.inl rfl⟩
            rintro (hv | ⟨d, hv⟩) <;> simp at hv
          · split at h
            case h_1 e hr =>
              cases h
              refine ⟨?_, Or.inl rfl⟩
              have he := resolveTopic_error hr
              subst he
              rintro (hv | ⟨d, hv⟩) <;> simp at hv
            case h_2 tP tN hr =>
              split at h
              case h_1 msg hx =>
                cases h
                refine ⟨?_, Or.inr ⟨tP, tN, [], rfl, by simp⟩⟩
                rintro (hv | ⟨d, hv⟩) <;> simp at hv
              case h_2 hx =>
                cases h
                refine ⟨?_, Or.inr ⟨tP, tN, [], rfl, by simp⟩⟩
                rintro (hv | ⟨d, hv⟩) <;> simp at hv
              case h_3 hx =>
                split at h
                case h_1 e hg =>
                  cases h
                  refine ⟨?_, Or.inr ⟨tP, tN, [], rfl, by simp⟩⟩
                  obtain ⟨i, rfl⟩ := getData_error_shape hg
                  rintro (hv | ⟨d, hv⟩) <;> simp at hv
                case h_2 msgs hg =>
                  split at h
                  · cases h
                    refine ⟨fun _ => ⟨tP, tN, rfl⟩,
                      Or.inr ⟨tP, tN, [], rfl, by simp⟩⟩
                  · split at h
                    · split at h
                      case h_1 p idx e hpub =>
                        cases h
                        refine ⟨?_, Or.inr ⟨tP, tN, _, rfl, ?_⟩⟩
                        · rintro (hv | ⟨d, hv⟩) <;> simp at hv
                        · intro ev hev
                          obtain ⟨q, _, rfl⟩ := List.mem_map.mp hev
                          exact ⟨q.1, q.2, rfl⟩
                      case h_2 hpub =>
                        cases h
                        refine ⟨?_, Or.inr ⟨tP, tN, _, rfl, ?_⟩⟩
                        · rintro (hv | ⟨d, hv⟩) <;> simp at hv
                        · intro ev hev
                          obtain ⟨q, _, rfl⟩ := List.mem_map.mp hev
                          exact ⟨q.1, q.2, rfl⟩
                    · cases h
                      refine ⟨fun _ => ⟨tP, tN, rfl⟩,
                        Or.inr ⟨tP, tN, [], rfl, by simp⟩⟩

/-- C1 witness: the duplicate run of `envC1`, where the validation error
coexists with a trace holding exactly the existence check. -/
theorem c1_pipeline_order_witness :
    (((.error (.duplicates [[104, 105]]) : Except GoErr Unit) = .error .noData ∨
        ∃ d, (.error (.duplicates [[104, 105]]) : Except GoErr Unit) =
          .error (.duplicates d)) →
      ∃ tP tN, [Event.existsCheck "p1" "t1"] = [Event.existsCheck tP tN])
    ∧ ([Event.existsCheck "p1" "t1"] = ([] : List Event) ∨
        ∃ tP tN rest, [Event.existsCheck "p1" "t1"] =
            Event.existsCheck tP tN :: rest ∧
          ∀ e ∈ rest, ∃ i m, e = Event.publish i m) :=
  c1_pipeline_order envC1
    (show realMain envC1 =
      ⟨.error (.duplicates [[104, 105]]), [], [.existsCheck "p1" "t1"]⟩ by decide)

/-- C9 (confirmed): every non-piped data argument decodes to a batch of
exactly one payload, and on that path the run can end neither in the
empty-batch error nor in the duplicate-payload error. -/
theorem c9_single_payload (env : Env) {res : Except GoErr Unit}
    {out : List String} {ev : List Event}
    (hdash : env.dataArg ≠ "-")
    (h : realMain env = ⟨res, out, ev⟩) :
    (∃ m, getData env.dataArg env.stdin = .ok [m])
    ∧ res ≠ .error .noData ∧ ∀ d, res ≠ .error (.duplicates d) := by
  have hm := getData_single env.dataArg env.stdin hdash
  refine ⟨⟨_, hm⟩, ?_⟩
  unfold realMain at h
  split at h
  case h_1 e hp =>
    cases h
    obtain ⟨s, rfl⟩ := getProject_error hp
    exact ⟨by simp, fun d => by simp⟩
  case h_2 project hp =>
    split at h
    case h_1 msg hc =>
      cases h
      exact ⟨by simp, fun d => by simp⟩
    case h_2 hc =>
      split at h
      · cases h
        exact ⟨by simp, fun d => by simp⟩
      · split at h
        · cases h
          exact ⟨by simp, fun d => by simp⟩
        · split at h
          · cases h
            exact ⟨by simp, fun d => by simp⟩
          · split at h
            case h_1 e hr =>
              cases h
              have he := resolveTopic_error hr
              subst he
              exact ⟨by simp, fun d => by simp⟩
            case h_2 tP tN hr =>
              split at h
              case h_1 msg hx =>
                cases h
                exact ⟨by simp, fun d => by simp⟩
              case h_2 hx =>
                cases h
                exact ⟨by simp, fun d => by simp⟩
              case h_3 hx =>
                split at h
                case h_1 e hg =>
                  cases h
                  obtain ⟨i, rfl⟩ := getData_error_shape hg
                  exact ⟨by simp, fun d => by simp⟩
                case h_2 msgs hg =>
                  rw [hm] at hg
                  injection hg with hg
                  split at h
                  · next hlen =>
                    rw [← hg] at hlen
                    simp at hlen
                  · split at h
                    · split at h
                      case h_1 p idx e hpub =>
                        cases h
                        exact ⟨by simp, fun d => by simp⟩
                      case h_2 hpub =>
                        cases h
                        exact ⟨by simp, fun d => by simp⟩
                    · next hdup =>
                      rw [← hg, findDuplicates_single] at hdup
                      simp at hdup

/-- C9 witness: the run of `envC9` with the single argument `aGVsbG8=`. -/
theorem c9_single_payload_witness :
    (∃ m, getData envC9.dataArg envC9.stdin = .ok [m])
    ∧ (.ok () : Except GoErr Unit) ≠ .error .noData
    ∧ ∀ d, (.ok () : Except GoErr Unit) ≠ .error (.duplicates d) :=
  c9_single_payload envC9 (by decide)
    (show realMain envC9 =
      ⟨.ok (), ["published 5 bytes across 1 message(s) to projects/p1/topics/t1 in 1s"],
        [.existsCheck "p1" "t1", .publish 0 [104, 101, 108, 108, 111]]⟩ by decide)

/-- C10 (confirmed): every invalid-format error the driver returns wraps
a `nil` error value — both assignments to the enclosing `err` variable
before that point returned on any non-nil value — so its message ends in
the `%!w(<nil>)` artifact instead of an underlying cause. -/
theorem c10_format_error_nil_wrap (env : Env) {res : Except GoErr Unit}
    {out : List String} {ev : List Event} {w : Option String}
    (h : realMain env = ⟨res, out, ev⟩)
    (hres : res = .error (.invalidFormat w)) :
    w = none ∧
      errMsg (.invalidFormat w) =
        "invalid format: expects projects/PROJECT_ID/topics/NAME: %!w(<nil>)" := by
  subst hres
  unfold realMain at h
  split at h
  case h_1 e hp =>
    injection h with h1 h2 h3
    obtain ⟨s, rfl⟩ := getProject_error hp
    simp at h1
  case h_2 project hp =>
    split at h
    case h_1 msg hc =>
      injection h with h1 h2 h3
      simp at h1
    case h_2 hc =>
      split at h
      · injection h with h1 h2 h3
        simp at h1
      · split at h
        · injection h with h1 h2 h3
          simp at h1
        · split at h
          · injection h with h1 h2 h3
            simp at h1
          · split at h
            case h_1 e hr =>
              injection h with h1 h2 h3
              have he := resolveTopic_error hr
              subst he
              simp only [Except.error.injEq, GoErr.invalidFormat.injEq] at h1
              subst h1
              exact ⟨rfl, rfl⟩
            case h_2 tP tN hr =>
              split at h
              case h_1 msg hx =>
                injection h with h1 h2 h3
                simp at h1
              case h_2 hx =>
                injection h with h1 h2 h3
                simp at h1
              case h_3 hx =>
                split at h
                case h_1 e hg =>
                  injection h with h1 h2 h3
                  obtain ⟨i, rfl⟩ := getData_error_shape hg
                  simp at h1
                case h_2 msgs hg =>
                  split at h
                  · injection h with h1 h2 h3
                    simp at h1
                  · split at h
                    · split at h
                      case h_1 p idx e hpub =>
                        injection h with h1 h2 h3
                        simp at h1
                      case h_2 hpub =>
                        injection h with h1 h2 h3
                        simp at h1
                    · injection h with h1 h2 h3
                      simp at h1

/-- C10 witness: the two-segment topic `x/y` produces the format error
with the `nil` wrap and the artifact message. -/
theorem c10_format_error_nil_wrap_witness :
    (none : Option String) = none ∧
      errMsg (.invalidFormat none) =
        "invalid format: expects projects/PROJECT_ID/topics/NAME: %!w(<nil>)" :=
  c10_format_error_nil_wrap envC10
    (show realMain envC10 = ⟨.error (.invalidFormat none), [], []⟩ by decide) rfl
